/-
Verification development for the audition markers extractor
(`markers_extractor.py`).

The program is a data-transformation pipeline: parse an XML (SESX) project
file into a clip-name-to-start-offset map plus a list of WAV paths
(`parse_sesx_file`), read embedded cue markers from each WAV file
(`extract_markers_from_wav`), shift each marker's position by the matching
clip's start offset and recompute its derived time fields
(`MarkersExtractorGUI.extract_markers`), format times (`format_time`) and
serialize rows (`save_markers_to_csv`).

Modelling conventions used throughout this file:
  * Python floats are modelled as exact rationals (`ℚ`); `x // y` is
    mathematical floor division, `x % y = x - y * (x // y)`, and fixed-point
    formatting rounds to nearest (ties cannot arise for the decimal values
    of interest, so round-half-up is used).
  * Python strings are modelled as Lean `String`s; the handful of string
    operations the source uses (`replace`, `lower`, `endswith`, substring
    test, `os.path.basename`) are defined here by structural recursion on
    the character list so that concrete instances evaluate by kernel
    reduction.  `lower` is modelled on ASCII letters, which covers every
    string the source compares.
  * Python dicts are modelled as association lists in insertion order:
    assignment to an existing key overwrites in place, lookup returns the
    first (unique) matching entry.
  * File-system access and the wavinfo reader are external inputs: they are
    modelled as values of an `Except`/`Option`-shaped input type, and the
    `try/except` blocks of the source become case analysis on those values.
-/
import Mathlib

/-! ## Python string primitives -/

/-- Does the second list start with the first (`str.startswith`, and the
prefix test used by `str.replace`)? -/
def startsWithList : List Char → List Char → Bool
  | [], _ => true
  | _ :: _, [] => false
  | a :: as, b :: bs => a == b && startsWithList as bs

/-- Python's substring test `pat in s` on character lists. -/
def containsList (pat : List Char) : List Char → Bool
  | [] => pat.isEmpty
  | c :: rest => startsWithList pat (c :: rest) || containsList pat rest

/-- One fuelled pass of Python's `str.replace(pat, '')`: delete the
left-most occurrence of `pat`, continue after it, never overlapping.  The
fuel is the length of the string, which bounds the recursion because `pat`
is nonempty in every use below. -/
def replaceDelLoop (pat : List Char) : Nat → List Char → List Char
  | 0, s => s
  | _ + 1, [] => []
  | fuel + 1, c :: rest =>
    if startsWithList pat (c :: rest) then
      replaceDelLoop pat fuel ((c :: rest).drop pat.length)
    else
      c :: replaceDelLoop pat fuel rest

/-- Python's `s.replace(pat, '')`: delete every non-overlapping occurrence
of `pat` in `s`, scanning left to right. -/
def pyReplaceDel (s pat : String) : String :=
  ⟨replaceDelLoop pat.data s.data.length s.data⟩

/-- ASCII model of `str.lower` on one character. -/
def lowerChar (c : Char) : Char :=
  if 'A' ≤ c ∧ c ≤ 'Z' then Char.ofNat (c.toNat + 32) else c

/-- ASCII model of `str.lower`. -/
def pyLower (s : String) : String := ⟨s.data.map lowerChar⟩

/-- Python's `s.endswith(pat)`. -/
def pyEndsWith (s pat : String) : Bool :=
  startsWithList pat.data.reverse s.data.reverse

/-- Python's `pat in s` substring containment. -/
def pyContains (s pat : String) : Bool := containsList pat.data s.data

/-- Model of `os.path.basename` for POSIX-style paths: the part after the
last path separator. -/
def pyBasename (s : String) : String :=
  ⟨s.data.foldl (fun acc c => if c = '/' then [] else acc ++ [c]) []⟩

/-- Model of `os.path.join(dir, rel)` for a relative second argument. -/
def pyJoin (dir rel : String) : String := dir ++ "/" ++ rel

/-! ## Python dicts as insertion-ordered association lists -/

/-- Python dict assignment `d[k] = v`: overwrite in place if the key is
present, otherwise append at the end. -/
def pyDictInsert {α β : Type} [DecidableEq α] (k : α) (v : β) :
    List (α × β) → List (α × β)
  | [] => [(k, v)]
  | (k', v') :: rest =>
    if k' = k then (k, v) :: rest else (k', v') :: pyDictInsert k v rest

/-- Python dict lookup `d.get(k, default)`. -/
def pyDictGet {α β : Type} [DecidableEq α] :
    List (α × β) → α → β → β
  | [], _, dflt => dflt
  | (k', v') :: rest, k, dflt =>
    if k' = k then v' else pyDictGet rest k dflt

/-- Python's `int(x)` on a float value: truncation toward zero. -/
def pyIntOfFloat (q : ℚ) : ℤ := if 0 ≤ q then ⌊q⌋ else ⌈q⌉

/-! ## The time formatter (`format_time`, lines 139-151)

The source computes `minutes = int(seconds // 60)`, `secs = seconds % 60`
and prints minutes zero-padded to width 2 followed by `secs` formatted with
3 decimal places and the integer part zero-padded to width 2 (format
`06.3f`).  Internally the two numbers are computed on the rational's
numerator and denominator via `Rat.divInt` so that concrete inputs evaluate
by kernel reduction; `ftMinutes_eq` and `ftRound_eq` prove they equal the
intended floor expressions. -/

/-- Value of `int(seconds // 60)` for `seconds = q`: the floor of `q / 60`,
computed on numerator and denominator. -/
def ftMinutes (q : ℚ) : ℤ := ⌊Rat.divInt q.num (60 * (q.den : ℤ))⌋

/-- Value of `seconds % 60` rounded to 3 decimal places and scaled by 1000,
i.e. the integer printed (divided by 1000) in the seconds field: the floor
of `(q - 60 * (q // 60)) * 1000 + 1/2`, computed on numerator and
denominator. -/
def ftRound (q : ℚ) : ℤ :=
  ⌊Rat.divInt (2000 * q.num - 120000 * ftMinutes q * (q.den : ℤ) + (q.den : ℤ))
      (2 * (q.den : ℤ))⌋

/-- Python's zero-padded width-2 decimal rendering of the minutes value
(format `02d`): two digits below 100, the plain decimal rendering above. -/
def minuteStr (m : ℕ) : String :=
  if m < 100 then ⟨[Nat.digitChar (m / 10), Nat.digitChar (m % 10)]⟩
  else Nat.repr m

/-- Rendering of the seconds field from its rounded millisecond count `r`
(format `06.3f` for values below 100, which covers every reachable value
since `seconds % 60 < 60`): two integer digits, a dot, three fractional
digits. -/
def secondsStr (r : ℕ) : String :=
  ⟨[Nat.digitChar (r / 10000), Nat.digitChar (r / 1000 % 10), '.',
    Nat.digitChar (r % 1000 / 100), Nat.digitChar (r % 100 / 10),
    Nat.digitChar (r % 10)]⟩

/-- Embedding of `format_time` (lines 139-151): negative input is clamped
to `"00:00.000"`; otherwise minutes and the rounded seconds field are
rendered as `minuteStr` and `secondsStr`. -/
def format_time (seconds : ℚ) : String :=
  if seconds < 0 then "00:00.000"
  else minuteStr (ftMinutes seconds).toNat ++ ":" ++ secondsStr (ftRound seconds).toNat

/-! ## The project parser (`parse_sesx_file`, lines 34-77)

The XML document is modelled by the attributes the parser reads: each
`audioClip` element contributes its `name` attribute (the empty string when
the attribute is missing, matching `get('name', '')`) and its `startPoint`
attribute, and each `file` element contributes its `relativePath` attribute
together with the `os.path.exists` answer for the resolved path.  A
`startPoint` attribute is `none` when missing or empty (both are falsy in
the source's truthiness test), `StartAttr.val q` when `float(...)` parses
it to the value `q`, and `StartAttr.malformed` when `float(...)` raises. -/

/-- The `startPoint` attribute of one `audioClip` element. -/
inductive StartAttr where
  | val (q : ℚ)
  | malformed
deriving DecidableEq

/-- One `audioClip` element, reduced to the attributes the parser reads. -/
structure AudioClip where
  name : String
  startPoint : Option StartAttr
deriving DecidableEq

/-- One `file` element, reduced to its `relativePath` attribute and the
`os.path.exists` answer for the path resolved against the project dir. -/
structure FileElem where
  relativePath : String
  onDisk : Bool
deriving DecidableEq

/-- A parsed SESX document: the `audioClip` and `file` elements in document
order. -/
structure SesxDoc where
  audioClips : List AudioClip
  files : List FileElem
deriving DecidableEq

/-- Clip-name cleaning at line 56:
`name.replace('.WAV', '').replace('.wav', '')`. -/
def cleanNameSesx (name : String) : String :=
  pyReplaceDel (pyReplaceDel name ".WAV") ".wav"

/-- The `audioClip` loop (lines 52-59), threading the dict accumulator.
The Boolean result records whether `int(float(start_point))` raised, which
aborts the loop (and skips the `file` loop) by jumping to the handler.
A clip whose cleaned name is empty or whose `startPoint` is missing or
empty is skipped (the `if clean_name and start_point` test). -/
def processClips : List AudioClip → List (String × ℤ) → List (String × ℤ) × Bool
  | [], acc => (acc, false)
  | c :: rest, acc =>
    let clean_name := cleanNameSesx c.name
    match c.startPoint with
    | none => processClips rest acc
    | some sa =>
      if clean_name = "" then processClips rest acc
      else
        match sa with
        | .malformed => (acc, true)
        | .val q => processClips rest (pyDictInsert clean_name (pyIntOfFloat q) acc)

/-- The `file` loop (lines 62-70): keep elements whose `relativePath` ends
in `.wav` case-insensitively and whose resolved path exists on disk, and
return the resolved paths. -/
def processFiles (sesx_dir : String) (files : List FileElem) : List String :=
  (files.filter (fun f => pyEndsWith (pyLower f.relativePath) ".wav" && f.onDisk)).map
    (fun f => pyJoin sesx_dir f.relativePath)

/-- Embedding of `parse_sesx_file` (lines 34-77).  The input is the result
of `ET.parse`: `.error` when the document is unreadable or malformed (the
exception propagates to the handler before any element is processed).  When
a `startPoint` raises inside the clip loop, the handler receives the dict
as accumulated so far and the still-empty WAV list. -/
def parse_sesx_file (doc : Except String SesxDoc) (sesx_dir : String) :
    List (String × ℤ) × List String :=
  match doc with
  | .error _ => ([], [])
  | .ok d =>
    let res := processClips d.audioClips []
    if res.2 then (res.1, []) else (res.1, processFiles sesx_dir d.files)

/-! ## The marker reader (`extract_markers_from_wav`, lines 79-137)

`wavinfo`'s data is modelled by the fields the source reads: the format
chunk's sample rate (`none` when absent, triggering the 48000 default), and
the cue chunk (`none` when `wav.cues` is absent or falsy) holding the cue
list, the label list and the range list.  Labels or ranges whose objects
lack the probed attributes are simply absent from these lists. -/

/-- One cue point: its numeric cue id (`cue_marker.name`) and its sample
position (`getattr(cue_marker, 'position', 0)` is modelled by the field
itself; an absent attribute is position 0). -/
structure CuePoint where
  name : ℕ
  position : ℤ
deriving DecidableEq

/-- One label entry: cue id and display text. -/
structure LabelEntry where
  name : ℕ
  text : String
deriving DecidableEq

/-- One range entry: cue id and length in samples. -/
structure RangeEntry where
  name : ℕ
  length : ℤ
deriving DecidableEq

/-- The cue chunk of a WAV file. -/
structure CueChunk where
  cues : List CuePoint
  labels : List LabelEntry
  ranges : List RangeEntry
deriving DecidableEq

/-- The metadata read from one WAV file. -/
structure WavData where
  sampleRateMeta : Option ℕ
  cueChunk : Option CueChunk
deriving DecidableEq

/-- One extracted marker record (the dict built at lines 123-132). -/
structure Marker where
  filename : String
  name : String
  position : ℤ
  time_seconds : ℚ
  time_formatted : String
  type : String
  sample_rate : ℕ
  duration : ℤ
deriving DecidableEq

/-- Embedding of `extract_markers_from_wav` (lines 79-137).  The first
argument is the WAV file path; the second is the outcome of opening and
reading it with `WavInfoReader` (`.error` when any step raises, in which
case the handler returns the still-empty marker list). -/
def extract_markers_from_wav (wav_file_path : String)
    (readResult : Except String WavData) : List Marker :=
  match readResult with
  | .error _ => []
  | .ok wav =>
    let sample_rate := wav.sampleRateMeta.getD 48000
    match wav.cueChunk with
    | none => []
    | some chunk =>
      let labels_dict := chunk.labels.foldl
        (fun d l => pyDictInsert l.name l.text d) []
      let ranges_dict := chunk.ranges.foldl
        (fun d r => pyDictInsert r.name r.length d) []
      chunk.cues.map (fun cue_marker =>
        let marker_text := pyDictGet labels_dict cue_marker.name
          ("Marker " ++ toString cue_marker.name)
        let duration := pyDictGet ranges_dict cue_marker.name 0
        { filename := pyBasename wav_file_path
          name := marker_text
          position := cue_marker.position
          time_seconds := (cue_marker.position : ℚ) / (sample_rate : ℚ)
          time_formatted := format_time ((cue_marker.position : ℚ) / (sample_rate : ℚ))
          type := "Cue"
          sample_rate := sample_rate
          duration := duration })

/-! ## The CSV writer (`save_markers_to_csv`, lines 153-189) -/

/-- The fixed header row. -/
def csvHeader : List String :=
  ["Name", "Start", "Duration", "Time Format", "Type", "Description"]

/-- One output row (lines 168-182).  The marker dicts built by
`extract_markers_from_wav` never carry a `description` key, so
`marker.get('description', '')` is the empty string, overwritten when
`duration > 0`. -/
def markerRow (marker : Marker) : List String :=
  let sample_rate := marker.sample_rate
  let duration := marker.duration
  let description : String :=
    if duration > 0 then
      "Range: " ++ format_time ((duration : ℚ) / (sample_rate : ℚ))
    else ""
  [marker.name, toString marker.position, toString duration,
    toString sample_rate ++ " Hz", "Cue", description]

/-- Embedding of `save_markers_to_csv` (lines 153-189) as the rows it
writes: `none` models the early return (no file written) on an empty
marker list. -/
def save_markers_to_csv (markers : List Marker) : Option (List (List String)) :=
  if markers.isEmpty then none
  else some (csvHeader :: markers.map markerRow)

/-! ## The orchestrator (`MarkersExtractorGUI.extract_markers`, lines 314-365) -/

/-- One WAV file as the orchestrator sees it: the path recorded by the
parser, whether it still exists at extraction time, and the outcome of
reading it. -/
structure WavFile where
  path : String
  onDisk : Bool
  readResult : Except String WavData

/-- Filename cleaning at line 335:
`filename.replace('.wav', '').replace('.WAV', '')`. -/
def cleanFilenameExtract (filename : String) : String :=
  pyReplaceDel (pyReplaceDel filename ".wav") ".WAV"

/-- The per-marker offset adjustment (lines 345-353): add the clip start to
the position, then recompute `time_seconds` and `time_formatted` from the
new position and the marker's own sample rate. -/
def adjustMarker (clip_start : ℤ) (marker : Marker) : Marker :=
  let position := marker.position + clip_start
  { marker with
      position := position
      time_seconds := (position : ℚ) / (marker.sample_rate : ℚ)
      time_formatted := format_time ((position : ℚ) / (marker.sample_rate : ℚ)) }

/-- Embedding of the WAV loop of `extract_markers` (lines 327-354): for
each existing WAV file, look the cleaned basename up in the clip dict
(`self.clips_info.get(clean_filename, 0)`), extract its markers, shift
them, and append to the collected list. -/
def extract_markers (clips_info : List (String × ℤ)) (wav_files : List WavFile) :
    List Marker :=
  wav_files.foldl
    (fun all_markers wav_file =>
      if !wav_file.onDisk then all_markers
      else
        let filename := pyBasename wav_file.path
        let clean_filename := cleanFilenameExtract filename
        let clip_start := pyDictGet clips_info clean_filename 0
        let markers := extract_markers_from_wav wav_file.path wav_file.readResult
        if markers.isEmpty then all_markers
        else all_markers ++ markers.map (adjustMarker clip_start))
    []

/-! ## Definitions taken from the specification's words

These two definitions follow the specification text rather than the source;
they exist to be compared against the source-derived definitions above. -/

/-- Modelled from the spec: normalization of a clip name described as
stripping a case-insensitive `.wav` suffix and leaving the rest of the name
unchanged. -/
def specStripWavSuffix (s : String) : String :=
  if pyEndsWith (pyLower s) ".wav" then s.dropRight 4 else s

/-- Modelled from the spec: the offset the spec says is added to a WAV
file's markers: the start offset of the first clip in mapping iteration
order whose normalized name is contained case-insensitively in the WAV
file's base name with the extension stripped; 0 when no clip matches. -/
def specMatchOffset (clips_info : List (String × ℤ)) (basename : String) : ℤ :=
  match clips_info.find?
      (fun p => pyContains (pyLower (specStripWavSuffix basename)) (pyLower p.1)) with
  | some p => p.2
  | none => 0

/-! ## Derived predicates on the clip loop

Used to state what `processClips` computes: which clip element makes
`int(float(start_point))` raise, and what one non-raising iteration does to
the dict accumulator. -/

/-- Does processing this `audioClip` raise, i.e. does it pass the
truthiness test (non-empty cleaned name, present `startPoint`) with a
`startPoint` on which `float(...)` fails? -/
def clipRaises (c : AudioClip) : Bool :=
  match c.startPoint with
  | some .malformed => cleanNameSesx c.name != ""
  | _ => false

/-- Effect of one non-raising `audioClip` iteration on the dict
accumulator: store the truncated start point under the cleaned name when
the truthiness test passes, otherwise leave the dict unchanged. -/
def clipStep (c : AudioClip) (acc : List (String × ℤ)) : List (String × ℤ) :=
  match c.startPoint with
  | some (.val q) =>
    if cleanNameSesx c.name = "" then acc
    else pyDictInsert (cleanNameSesx c.name) (pyIntOfFloat q) acc
  | _ => acc

/-! ## Properties of the time formatter -/

/-- Decides whether a string has the `MM:SS.mmm` shape: exactly nine
characters, digits everywhere except a `:` at index 2 and a `.` at
index 5. -/
def isTimeShape (s : String) : Bool :=
  match s.data with
  | [c0, c1, c2, c3, c4, c5, c6, c7, c8] =>
    c0.isDigit && c1.isDigit && (c2 == ':') && c3.isDigit && c4.isDigit &&
      (c5 == '.') && c6.isDigit && c7.isDigit && c8.isDigit
  | _ => false

/-- Character list produced by `format_time` for minutes `m < 100` and
rounded milliseconds `r ≤ 60000`. -/
def timeList (m r : ℕ) : List Char :=
  [Nat.digitChar (m / 10), Nat.digitChar (m % 10), ':',
   Nat.digitChar (r / 10000), Nat.digitChar (r / 1000 % 10), '.',
   Nat.digitChar (r % 1000 / 100), Nat.digitChar (r % 100 / 10),
   Nat.digitChar (r % 10)]

theorem num_eq_mul_den (q : ℚ) : (q.num : ℚ) = q * (q.den : ℚ) := by
  have hden : ((q.den : ℚ)) ≠ 0 := by
    exact_mod_cast q.den_pos.ne'
  nth_rewrite 2 [← Rat.num_div_den q]
  rw [div_mul_cancel₀ _ hden]

/-- The minutes value computed by `format_time` is the floor of
`seconds / 60`, i.e. Python's `int(seconds // 60)`. -/
theorem ftMinutes_eq (q : ℚ) : ftMinutes q = ⌊q / 60⌋ := by
  have hden : ((q.den : ℚ)) ≠ 0 := by
    exact_mod_cast q.den_pos.ne'
  rw [ftMinutes, Rat.divInt_eq_div]
  congr 1
  rw [div_eq_div_iff (by push_cast; positivity) (by norm_num : (60:ℚ) ≠ 0)]
  push_cast
  linear_combination (60 : ℚ) * num_eq_mul_den q

/-- The milliseconds value computed by `format_time` is the rounding of
`(seconds % 60) * 1000`, i.e. the number printed in the seconds field
scaled by 1000. -/
theorem ftRound_eq (q : ℚ) :
    ftRound q = ⌊(q - 60 * (ftMinutes q : ℚ)) * 1000 + 1/2⌋ := by
  have hden : ((q.den : ℚ)) ≠ 0 := by
    exact_mod_cast q.den_pos.ne'
  rw [ftRound, Rat.divInt_eq_div]
  congr 1
  rw [div_eq_iff (by push_cast; positivity)]
  push_cast
  linear_combination (2000 : ℚ) * num_eq_mul_den q

theorem ftMinutes_nonneg {q : ℚ} (h : 0 ≤ q) : 0 ≤ ftMinutes q := by
  rw [ftMinutes_eq]
  exact Int.floor_nonneg.mpr (by positivity)

theorem ftMinutes_lt_100 {q : ℚ} (h : q < 6000) : ftMinutes q < 100 := by
  rw [ftMinutes_eq, Int.floor_lt]
  push_cast
  linarith

theorem ftMinutes_mono {q1 q2 : ℚ} (h : q1 ≤ q2) : ftMinutes q1 ≤ ftMinutes q2 := by
  rw [ftMinutes_eq, ftMinutes_eq]
  exact Int.floor_le_floor (by linarith)

theorem secs_nonneg (q : ℚ) : 0 ≤ q - 60 * (ftMinutes q : ℚ) := by
  rw [ftMinutes_eq]
  have h := Int.floor_le (q / 60)
  linarith

theorem secs_lt_60 (q : ℚ) : q - 60 * (ftMinutes q : ℚ) < 60 := by
  rw [ftMinutes_eq]
  have h := Int.lt_floor_add_one (q / 60)
  linarith

theorem ftRound_nonneg (q : ℚ) : 0 ≤ ftRound q := by
  rw [ftRound_eq]
  have h := secs_nonneg q
  exact Int.floor_nonneg.mpr (by linarith)

theorem ftRound_le (q : ℚ) : ftRound q ≤ 60000 := by
  rw [ftRound_eq]
  have h := secs_lt_60 q
  have h2 : (q - 60 * (ftMinutes q : ℚ)) * 1000 + 1/2 < ((60001 : ℤ) : ℚ) := by
    push_cast
    linarith
  have := Int.floor_lt.mpr h2
  omega

theorem ftRound_mono {q1 q2 : ℚ} (hm : ftMinutes q1 = ftMinutes q2) (h : q1 ≤ q2) :
    ftRound q1 ≤ ftRound q2 := by
  rw [ftRound_eq, ftRound_eq, hm]
  exact Int.floor_le_floor (by linarith)

/-- Character-level description of `format_time` on a non-negative input
whose minutes fit in two digits. -/
theorem format_time_data (q : ℚ) (h0 : ¬ q < 0) (hm : (ftMinutes q).toNat < 100) :
    (format_time q).data =
      timeList (ftMinutes q).toNat (ftRound q).toNat := by
  rw [format_time, if_neg h0, minuteStr, if_pos hm]
  simp [String.data_append, secondsStr, timeList]

theorem digitChar_lt_digitChar :
    ∀ a, a < 10 → ∀ b, b < 10 → a < b → Nat.digitChar a < Nat.digitChar b := by
  decide

theorem digitChar_isDigit : ∀ a, a < 10 → (Nat.digitChar a).isDigit = true := by
  decide

theorem timeList_lt_left {m1 m2 : ℕ} (r1 r2 : ℕ) (h1 : m1 < 100) (h2 : m2 < 100)
    (h : m1 < m2) : timeList m1 r1 < timeList m2 r2 := by
  rw [timeList, timeList]
  show List.Lex (· < ·) _ _
  rcases Nat.lt_or_ge (m1 / 10) (m2 / 10) with hlt | hge
  · exact List.Lex.rel (digitChar_lt_digitChar _ (by omega) _ (by omega) hlt)
  · have he : m1 / 10 = m2 / 10 := by omega
    have ho : m1 % 10 < m2 % 10 := by omega
    rw [he]
    exact List.Lex.cons
      (List.Lex.rel (digitChar_lt_digitChar _ (by omega) _ (by omega) ho))

theorem timeList_lt_right {m r1 r2 : ℕ} (hr1 : r1 ≤ 60000) (hr2 : r2 ≤ 60000)
    (h : r1 < r2) : timeList m r1 < timeList m r2 := by
  rw [timeList, timeList]
  show List.Lex (· < ·) _ _
  rcases Nat.lt_or_ge (r1 / 10000) (r2 / 10000) with h4 | h4
  · exact .cons (.cons (.cons (.rel
      (digitChar_lt_digitChar _ (by omega) _ (by omega) h4))))
  · have e4 : r1 / 10000 = r2 / 10000 := by omega
    rcases Nat.lt_or_ge (r1 / 1000 % 10) (r2 / 1000 % 10) with h3 | h3
    · rw [e4]
      exact .cons (.cons (.cons (.cons (.rel
        (digitChar_lt_digitChar _ (by omega) _ (by omega) h3)))))
    · have e3 : r1 / 1000 % 10 = r2 / 1000 % 10 := by omega
      rcases Nat.lt_or_ge (r1 % 1000 / 100) (r2 % 1000 / 100) with h2c | h2c
      · rw [e4, e3]
        exact .cons (.cons (.cons (.cons (.cons (.cons (.rel
          (digitChar_lt_digitChar _ (by omega) _ (by omega) h2c)))))))
      · have e2 : r1 % 1000 / 100 = r2 % 1000 / 100 := by omega
        rcases Nat.lt_or_ge (r1 % 100 / 10) (r2 % 100 / 10) with h1c | h1c
        · rw [e4, e3, e2]
          exact .cons (.cons (.cons (.cons (.cons (.cons (.cons (.rel
            (digitChar_lt_digitChar _ (by omega) _ (by omega) h1c))))))))
        · have e1 : r1 % 100 / 10 = r2 % 100 / 10 := by omega
          have h0c : r1 % 10 < r2 % 10 := by omega
          rw [e4, e3, e2, e1]
          exact .cons (.cons (.cons (.cons (.cons (.cons (.cons (.cons (.rel
            (digitChar_lt_digitChar _ (by omega) _ (by omega) h0c)))))))))

theorem timeList_le {m1 r1 m2 r2 : ℕ} (hm1 : m1 < 100) (hm2 : m2 < 100)
    (hr1 : r1 ≤ 60000) (hr2 : r2 ≤ 60000)
    (h : m1 < m2 ∨ (m1 = m2 ∧ r1 ≤ r2)) :
    timeList m1 r1 ≤ timeList m2 r2 := by
  rcases h with h | ⟨he, hr⟩
  · exact le_of_lt (timeList_lt_left r1 r2 hm1 hm2 h)
  · subst he
    rcases eq_or_lt_of_le hr with rfl | hlt
    · exact le_refl _
    · exact le_of_lt (timeList_lt_right hr1 hr2 hlt)

/-- Monotonicity of `format_time` on inputs below 100 minutes. -/
theorem format_time_mono {q1 q2 : ℚ} (h0 : 0 ≤ q1) (h12 : q1 ≤ q2)
    (h6000 : q2 < 6000) : format_time q1 ≤ format_time q2 := by
  have h01 : ¬ q1 < 0 := not_lt.mpr h0
  have h02 : ¬ q2 < 0 := not_lt.mpr (le_trans h0 h12)
  have hm1i : 0 ≤ ftMinutes q1 := ftMinutes_nonneg h0
  have hm2i : 0 ≤ ftMinutes q2 := ftMinutes_nonneg (le_trans h0 h12)
  have hmono := ftMinutes_mono h12
  have hlt2 : ftMinutes q2 < 100 := ftMinutes_lt_100 h6000
  have hm1 : (ftMinutes q1).toNat < 100 := by omega
  have hm2 : (ftMinutes q2).toNat < 100 := by omega
  have hr1 : (ftRound q1).toNat ≤ 60000 := by
    have := ftRound_le q1
    have := ftRound_nonneg q1
    omega
  have hr2 : (ftRound q2).toNat ≤ 60000 := by
    have := ftRound_le q2
    have := ftRound_nonneg q2
    omega
  rw [String.le_iff_toList_le]
  have e1 : (format_time q1).toList = (format_time q1).data := rfl
  have e2 : (format_time q2).toList = (format_time q2).data := rfl
  rw [e1, e2, format_time_data q1 h01 hm1, format_time_data q2 h02 hm2]
  refine timeList_le hm1 hm2 hr1 hr2 ?_
  rcases eq_or_lt_of_le hmono with he | hlt
  · right
    constructor
    · omega
    · have := ftRound_mono he h12
      have := ftRound_nonneg q1
      omega
  · left
    omega

/-- Shape of `format_time` output on non-negative inputs below 100
minutes. -/
theorem format_time_shape {q : ℚ} (h0 : 0 ≤ q) (h6 : q < 6000) :
    isTimeShape (format_time q) = true := by
  have hm2 : ftMinutes q < 100 := ftMinutes_lt_100 h6
  have hm0 : 0 ≤ ftMinutes q := ftMinutes_nonneg h0
  have hmn : (ftMinutes q).toNat < 100 := by omega
  have hrle := ftRound_le q
  have hr0 := ftRound_nonneg q
  have hrn : (ftRound q).toNat ≤ 60000 := by omega
  have hd := format_time_data q (not_lt.mpr h0) hmn
  have d0 : (Nat.digitChar ((ftMinutes q).toNat / 10)).isDigit = true :=
    digitChar_isDigit _ (by omega)
  have d1 : (Nat.digitChar ((ftMinutes q).toNat % 10)).isDigit = true :=
    digitChar_isDigit _ (by omega)
  have d2 : (Nat.digitChar ((ftRound q).toNat / 10000)).isDigit = true :=
    digitChar_isDigit _ (by omega)
  have d3 : (Nat.digitChar ((ftRound q).toNat / 1000 % 10)).isDigit = true :=
    digitChar_isDigit _ (by omega)
  have d4 : (Nat.digitChar ((ftRound q).toNat % 1000 / 100)).isDigit = true :=
    digitChar_isDigit _ (by omega)
  have d5 : (Nat.digitChar ((ftRound q).toNat % 100 / 10)).isDigit = true :=
    digitChar_isDigit _ (by omega)
  have d6 : (Nat.digitChar ((ftRound q).toNat % 10)).isDigit = true :=
    digitChar_isDigit _ (by omega)
  rw [isTimeShape, hd, timeList]
  simp [d0, d1, d2, d3, d4, d5, d6]

/-- C5 (counterexample): with sample rate 1 and positions 5940 ≤ 6000 the
formatted outputs are `"99:00.000"` and `"100:00.000"`, and the latter is
lexicographically smaller, so the formatted time is not non-decreasing. -/
theorem c5_counterexample :
    0 < (1 : ℕ) ∧ (0 : ℤ) ≤ 5940 ∧ (5940 : ℤ) ≤ 6000 ∧
    ¬ (format_time (((5940 : ℤ) : ℚ) / ((1 : ℕ) : ℚ)) ≤
       format_time (((6000 : ℤ) : ℚ) / ((1 : ℕ) : ℚ))) := by
  have h1 : (((5940 : ℤ) : ℚ) / ((1 : ℕ) : ℚ)) = (5940 : ℚ) := by norm_num
  have h2 : (((6000 : ℤ) : ℚ) / ((1 : ℕ) : ℚ)) = (6000 : ℚ) := by norm_num
  refine ⟨by decide, by decide, by decide, ?_⟩
  rw [h1, h2, String.le_iff_toList_le]
  decide

/-- C5 (amended): for sample_rate > 0 and 0 ≤ p1 ≤ p2, as long as p2 stays
below 100 minutes (p2 < 6000 * sample_rate), the formatted time is
non-decreasing in the position. -/
theorem c5_amended (sample_rate : ℕ) (p1 p2 : ℤ) (hr : 0 < sample_rate)
    (h0 : 0 ≤ p1) (h12 : p1 ≤ p2) (hb : p2 < 6000 * sample_rate) :
    format_time ((p1 : ℚ) / (sample_rate : ℚ)) ≤
      format_time ((p2 : ℚ) / (sample_rate : ℚ)) := by
  have hrq : (0 : ℚ) < (sample_rate : ℚ) := by exact_mod_cast hr
  have h0q : (0 : ℚ) ≤ (p1 : ℚ) := by exact_mod_cast h0
  have h12q : (p1 : ℚ) ≤ (p2 : ℚ) := by exact_mod_cast h12
  have hbq : (p2 : ℚ) < 6000 * (sample_rate : ℚ) := by exact_mod_cast hb
  apply format_time_mono
  · positivity
  · gcongr
  · rw [div_lt_iff₀ hrq]
    linarith

theorem c5_witness :
    format_time (((0 : ℤ) : ℚ) / ((1 : ℕ) : ℚ)) ≤
      format_time (((1 : ℤ) : ℚ) / ((1 : ℕ) : ℚ)) :=
  c5_amended 1 0 1 (by decide) (by decide) (by decide) (by decide)

/-- C6 (counterexample): at 6000 seconds the output is `"100:00.000"`,
which is not of the `MM:SS.mmm` shape with two-digit minutes. -/
theorem c6_counterexample :
    format_time (6000 : ℚ) = "100:00.000" ∧
    isTimeShape (format_time (6000 : ℚ)) = false := by
  constructor
  · decide
  · decide

/-- C6 (amended): `format_time` is a pure function; its output has the
`MM:SS.mmm` shape for all inputs from 0 (inclusive) up to 6000 seconds
(where the minutes field would need three digits); every negative input
returns `"00:00.000"`, and in particular `format_time (-1)` does. -/
theorem c6_amended :
    (∀ q : ℚ, 0 ≤ q → q < 6000 → isTimeShape (format_time q) = true) ∧
    (∀ q : ℚ, q < 0 → format_time q = "00:00.000") ∧
    format_time (-1 : ℚ) = "00:00.000" := by
  refine ⟨fun q h0 h6 => format_time_shape h0 h6, fun q hq => ?_, by decide⟩
  rw [format_time, if_pos hq]

theorem c6_witness :
    isTimeShape (format_time (125 : ℚ)) = true ∧
    format_time (-1 : ℚ) = "00:00.000" :=
  ⟨c6_amended.1 125 (by decide) (by decide), c6_amended.2.2⟩

/-- C10: the seconds field of `format_time` can roll over to `"60.000"`
without incrementing the minutes: at 59.9996 seconds (a non-negative
input) the output is `"00:60.000"`, not `"01:00.000"`. -/
theorem c10_rollover :
    (0 : ℚ) ≤ (599996 : ℚ) / 10000 ∧
    format_time ((599996 : ℚ) / 10000) = "00:60.000" ∧
    format_time ((599996 : ℚ) / 10000) ≠ "01:00.000" := by
  have h : ((599996 : ℚ) / 10000) = Rat.divInt 599996 10000 := by
    rw [Rat.divInt_eq_div]
    norm_num
  refine ⟨by positivity, ?_, ?_⟩
  · rw [h]
    decide
  · rw [h]
    decide

/-! ## The marker reader: error handling and defaults -/

/-- Claim C2: any failure while reading a WAV file's metadata is caught and
yields an empty marker list for that file instead of raising, so the
remaining files can still be processed. -/
theorem c2_read_failure_yields_empty (wav_file_path : String) (e : String) :
    extract_markers_from_wav wav_file_path (.error e) = [] := rfl

theorem pyDictGet_absent {α β : Type} [DecidableEq α] :
    ∀ (d : List (α × β)) (k : α) (dflt : β),
      (∀ p ∈ d, p.1 ≠ k) → pyDictGet d k dflt = dflt
  | [], _, _, _ => rfl
  | (k', v') :: rest, k, dflt, h => by
    rw [pyDictGet, if_neg (h (k', v') (List.mem_cons_self _ _))]
    exact pyDictGet_absent rest k dflt fun p hp => h p (List.mem_cons_of_mem _ hp)

theorem pyDictInsert_keyFree {α β : Type} [DecidableEq α] (k0 : α) (v : β)
    (k : α) (hk : k0 ≠ k) :
    ∀ d : List (α × β), (∀ p ∈ d, p.1 ≠ k) →
      ∀ p ∈ pyDictInsert k0 v d, p.1 ≠ k
  | [], _, p, hp => by
    rw [pyDictInsert] at hp
    rcases List.mem_singleton.mp hp with rfl
    exact hk
  | (k', v') :: rest, h, p, hp => by
    rw [pyDictInsert] at hp
    by_cases he : k' = k0
    · rw [if_pos he] at hp
      rcases List.mem_cons.mp hp with rfl | hmem
      · exact hk
      · exact h _ (List.mem_cons_of_mem _ hmem)
    · rw [if_neg he] at hp
      rcases List.mem_cons.mp hp with rfl | hmem
      · exact h _ (List.mem_cons_self _ _)
      · exact pyDictInsert_keyFree k0 v k hk rest
          (fun p' hp' => h p' (List.mem_cons_of_mem _ hp')) p hmem

theorem foldl_pyDictInsert_absent {α β γ : Type} [DecidableEq α]
    (key : γ → α) (val : γ → β) (k : α) (dflt : β) :
    ∀ (L : List γ) (d : List (α × β)),
      (∀ x ∈ L, key x ≠ k) → (∀ p ∈ d, p.1 ≠ k) →
      pyDictGet (L.foldl (fun acc x => pyDictInsert (key x) (val x) acc) d) k dflt
        = dflt
  | [], d, _, hd => pyDictGet_absent d k dflt hd
  | x :: rest, d, hL, hd => by
    rw [List.foldl_cons]
    exact foldl_pyDictInsert_absent key val k dflt rest _
      (fun y hy => hL y (List.mem_cons_of_mem _ hy))
      (pyDictInsert_keyFree (key x) (val x) k
        (hL x (List.mem_cons_self _ _)) d hd)

/-- Claim C9: a cue point with no label entry and no range entry for its
cue id produces a marker named `"Marker <id>"` with duration 0, and when
the format metadata carries no sample rate the marker's sample rate is the
48000 default. -/
theorem c9_fallback_marker (wav_file_path : String) (wav : WavData)
    (chunk : CueChunk) (cue : CuePoint)
    (hc : wav.cueChunk = some chunk) (hcue : cue ∈ chunk.cues)
    (hl : ∀ l ∈ chunk.labels, l.name ≠ cue.name)
    (hr : ∀ r ∈ chunk.ranges, r.name ≠ cue.name) :
    ∃ m ∈ extract_markers_from_wav wav_file_path (.ok wav),
      m.name = "Marker " ++ toString cue.name ∧ m.duration = 0 ∧
      m.position = cue.position ∧
      (wav.sampleRateMeta = none → m.sample_rate = 48000) := by
  rw [extract_markers_from_wav]
  rw [hc]
  refine ⟨_, List.mem_map_of_mem _ hcue, ?_, ?_, rfl, ?_⟩
  · exact foldl_pyDictInsert_absent LabelEntry.name LabelEntry.text cue.name _
      chunk.labels [] hl (by simp)
  · exact foldl_pyDictInsert_absent RangeEntry.name RangeEntry.length cue.name _
      chunk.ranges [] hr (by simp)
  · intro h
    rw [h]
    rfl

theorem c9_witness :
    ∃ m ∈ extract_markers_from_wav "/p/a.wav"
        (.ok ⟨none, some ⟨[⟨3, 7⟩], [], []⟩⟩),
      m.name = "Marker " ++ toString (3 : ℕ) ∧ m.duration = 0 ∧
      m.position = 7 ∧
      ((⟨none, some ⟨[⟨3, 7⟩], [], []⟩⟩ : WavData).sampleRateMeta = none →
        m.sample_rate = 48000) :=
  c9_fallback_marker "/p/a.wav" ⟨none, some ⟨[⟨3, 7⟩], [], []⟩⟩
    ⟨[⟨3, 7⟩], [], []⟩ ⟨3, 7⟩ rfl (List.mem_cons_self _ _)
    (by simp) (by simp)

/-! ## The project parser: error handling and clip normalization -/

/-- What the clip loop computes: the dict is folded over the longest prefix
of clips that does not raise, and the Boolean records whether any clip
raises (processing always reaches the first raising clip, since earlier
clips never abort). -/
theorem processClips_eq :
    ∀ (cs : List AudioClip) (acc : List (String × ℤ)),
      processClips cs acc =
        ((cs.takeWhile fun c => !clipRaises c).foldl (fun a c => clipStep c a) acc,
         cs.any clipRaises)
  | [], acc => rfl
  | c :: rest, acc => by
    rcases hsp : c.startPoint with _ | sa
    · have hR : clipRaises c = false := by
        rw [clipRaises, hsp]
      rw [processClips, hsp]
      rw [processClips_eq rest acc]
      have hstep : clipStep c acc = acc := by
        rw [clipStep, hsp]
      simp [List.takeWhile_cons, hR, hstep, List.any_cons]
    · by_cases hname : cleanNameSesx c.name = ""
      · have hR : clipRaises c = false := by
          rcases sa with q | _
          · rw [clipRaises, hsp]
          · rw [clipRaises, hsp]
            simp [hname]
        have hstep : clipStep c acc = acc := by
          rcases sa with q | _
          · simp [clipStep, hsp, hname]
          · rw [clipStep, hsp]
        rcases sa with q | _
        · rw [processClips, hsp]
          simp only [if_pos hname]
          rw [processClips_eq rest acc]
          simp [List.takeWhile_cons, hR, hstep, List.any_cons]
        · rw [processClips, hsp]
          simp only [if_pos hname]
          rw [processClips_eq rest acc]
          simp [List.takeWhile_cons, hR, hstep, List.any_cons]
      · rcases sa with q | _
        · have hR : clipRaises c = false := by
            rw [clipRaises, hsp]
          have hstep : clipStep c acc =
              pyDictInsert (cleanNameSesx c.name) (pyIntOfFloat q) acc := by
            simp [clipStep, hsp, hname]
          rw [processClips, hsp]
          simp only [if_neg hname]
          rw [processClips_eq rest _]
          simp [List.takeWhile_cons, hR, hstep, List.any_cons]
        · have hR : clipRaises c = true := by
            rw [clipRaises, hsp]
            simp [hname]
          rw [processClips, hsp]
          simp only [if_neg hname]
          simp [List.takeWhile_cons, hR, List.any_cons]

/-- C3 (counterexample): a document whose second clip carries an unparsable
`startPoint` makes the parser return the partially accumulated clip map,
not empty results. -/
theorem c3_counterexample :
    parse_sesx_file
        (.ok ⟨[⟨"a", some (.val 100)⟩, ⟨"b", some .malformed⟩],
              [⟨"a.wav", true⟩]⟩) "/p"
      = ([("a", 100)], []) ∧
    (([("a", 100)], ([] : List String)) ≠
      (([] : List (String × ℤ)), ([] : List String))) := by
  constructor
  · decide
  · decide

/-- C3 (amended): the parser never raises; a failure of `ET.parse` itself
(malformed document, I/O error) yields empty results, while an unparsable
`startPoint` attribute yields the clip entries accumulated before the
failing clip together with an empty WAV list. -/
theorem c3_amended :
    (∀ e dir : String, parse_sesx_file (.error e) dir = ([], [])) ∧
    (∀ (d : SesxDoc) (dir : String),
      parse_sesx_file (.ok d) dir =
        ((d.audioClips.takeWhile fun c => !clipRaises c).foldl
            (fun a c => clipStep c a) [],
         if d.audioClips.any clipRaises then [] else processFiles dir d.files)) := by
  constructor
  · intro e dir
    rfl
  · intro d dir
    rw [parse_sesx_file]
    rw [processClips_eq]
    by_cases h : d.audioClips.any clipRaises
    · simp [h]
    · simp [h]

/-- C7 (counterexample): a clip named `"Mix.Wav"` is stored under the key
`"Mix.Wav"`, unchanged, although the spec's case-insensitive suffix
stripping would store it under `"Mix"`: `replace` only handles the two
exact casings `.WAV` and `.wav`. -/
theorem c7_counterexample :
    (parse_sesx_file (.ok ⟨[⟨"Mix.Wav", some (.val 5)⟩], []⟩) "/p").1
      = [("Mix.Wav", 5)] ∧
    specStripWavSuffix "Mix.Wav" = "Mix" ∧
    ("Mix.Wav" : String) ≠ "Mix" := by
  refine ⟨by decide, by decide, by decide⟩

/-- C7 (amended): the clip loop skips a clip whose `startPoint` attribute
is missing and a clip whose cleaned name is empty, and otherwise stores,
under the name with every occurrence of the exact-casing substrings `.WAV`
and then `.wav` deleted (`cleanNameSesx`), the float value of `startPoint`
truncated toward zero; the truncation is the floor for non-negative values
and the ceiling for negative ones. -/
theorem c7_amended :
    (∀ (c : AudioClip) (rest : List AudioClip) (acc : List (String × ℤ)),
      c.startPoint = none →
      processClips (c :: rest) acc = processClips rest acc) ∧
    (∀ (c : AudioClip) (rest : List AudioClip) (acc : List (String × ℤ))
        (sa : StartAttr),
      c.startPoint = some sa → cleanNameSesx c.name = "" →
      processClips (c :: rest) acc = processClips rest acc) ∧
    (∀ (c : AudioClip) (rest : List AudioClip) (acc : List (String × ℤ))
        (q : ℚ),
      c.startPoint = some (.val q) → cleanNameSesx c.name ≠ "" →
      processClips (c :: rest) acc =
        processClips rest
          (pyDictInsert (cleanNameSesx c.name) (pyIntOfFloat q) acc)) ∧
    (∀ q : ℚ, 0 ≤ q → pyIntOfFloat q = ⌊q⌋) ∧
    (∀ q : ℚ, q < 0 → pyIntOfFloat q = ⌈q⌉) := by
  refine ⟨?_, ?_, ?_, ?_, ?_⟩
  · intro c rest acc h
    rw [processClips, h]
  · intro c rest acc sa h hname
    rcases sa with q | _
    · rw [processClips, h]
      simp [hname]
    · rw [processClips, h]
      simp [hname]
  · intro c rest acc q h hname
    rw [processClips, h]
    simp [hname]
  · intro q h
    rw [pyIntOfFloat, if_pos h]
  · intro q h
    rw [pyIntOfFloat, if_neg (not_le.mpr h)]

theorem c7_witness :
    processClips [⟨"Song_A.wav", some (.val 3)⟩] [] =
      processClips []
        (pyDictInsert (cleanNameSesx "Song_A.wav") (pyIntOfFloat 3) []) ∧
    pyIntOfFloat (3 : ℚ) = ⌊(3 : ℚ)⌋ :=
  ⟨(c7_amended.2.2.1 ⟨"Song_A.wav", some (.val 3)⟩ [] [] 3 rfl (by decide)),
   c7_amended.2.2.2.1 3 (by decide)⟩

/-! ## The orchestrator: offset lookup and additivity -/

/-- What the WAV loop of `extract_markers` computes, with the accumulator
made explicit: each existing file contributes its markers shifted by the
offset found by exact dict lookup of the cleaned basename. -/
theorem extract_markers_go (clips_info : List (String × ℤ)) :
    ∀ (wav_files : List WavFile) (acc : List Marker),
      wav_files.foldl
        (fun all_markers wav_file =>
          if !wav_file.onDisk then all_markers
          else
            let filename := pyBasename wav_file.path
            let clean_filename := cleanFilenameExtract filename
            let clip_start := pyDictGet clips_info clean_filename 0
            let markers := extract_markers_from_wav wav_file.path wav_file.readResult
            if markers.isEmpty then all_markers
            else all_markers ++ markers.map (adjustMarker clip_start))
        acc
      = acc ++ (wav_files.filter fun w => w.onDisk).flatMap
          (fun w =>
            (extract_markers_from_wav w.path w.readResult).map
              (adjustMarker
                (pyDictGet clips_info (cleanFilenameExtract (pyBasename w.path)) 0)))
  | [], acc => by simp
  | w :: rest, acc => by
    rw [List.foldl_cons, extract_markers_go clips_info rest]
    by_cases hd : w.onDisk
    · rcases he : (extract_markers_from_wav w.path w.readResult).isEmpty with _ | _
      · have he' : extract_markers_from_wav w.path w.readResult ≠ [] := by
          simpa using he
        simp [List.filter_cons, hd, he, List.flatMap_cons, List.append_assoc]
      · have he' : extract_markers_from_wav w.path w.readResult = [] := by
          simpa using he
        simp [List.filter_cons, hd, he, he', List.flatMap_cons]
    · simp [List.filter_cons, hd]

/-- C1 (counterexample): with clip map `[("song", 100)]` and the WAV file
`/p/song_a.wav`, the spec's case-insensitive substring match finds offset
100, but the code's exact lookup of the cleaned basename `"song_a"` finds
no key and adds offset 0: the extracted marker keeps its raw position 7
instead of the claimed 7 + 100. -/
theorem c1_counterexample :
    (extract_markers [("song", 100)]
        [⟨"/p/song_a.wav", true, .ok ⟨some 10, some ⟨[⟨1, 7⟩], [], []⟩⟩⟩]).map
      (fun m => m.position) = [7] ∧
    specMatchOffset [("song", 100)] (pyBasename "/p/song_a.wav") = 100 ∧
    ((7 : ℤ) ≠ 7 + specMatchOffset [("song", 100)] (pyBasename "/p/song_a.wav")) := by
  refine ⟨by decide, by decide, by decide⟩

/-- C1 (amended): the offset added to a WAV file's markers is the one found
by exact dict lookup: the file's basename with every occurrence of `.wav`
and then `.WAV` deleted is looked up in the clip map, with default 0 when
that exact key is absent; each existing file then contributes its markers
with exactly that offset added to their positions. -/
theorem c1_amended :
    (∀ (clips_info : List (String × ℤ)) (wav_files : List WavFile),
      extract_markers clips_info wav_files =
        (wav_files.filter fun w => w.onDisk).flatMap
          (fun w =>
            (extract_markers_from_wav w.path w.readResult).map
              (adjustMarker
                (pyDictGet clips_info
                  (cleanFilenameExtract (pyBasename w.path)) 0)))) ∧
    (∀ (clip_start : ℤ) (m : Marker),
      (adjustMarker clip_start m).position = m.position + clip_start) := by
  constructor
  · intro clips_info wav_files
    rw [extract_markers, extract_markers_go clips_info wav_files []]
    simp
  · intro clip_start m
    rfl

/-- C4: offset adjustment is additive and order-independent: adjusting with
offset `a` and then `b` produces the same marker record (position and both
recomputed time fields included) as adjusting once with `a + b`. -/
theorem c4_additive (marker : Marker) (a b : ℤ) :
    adjustMarker b (adjustMarker a marker) = adjustMarker (a + b) marker := by
  have h : marker.position + a + b = marker.position + (a + b) := by ring
  simp [adjustMarker, h]

/-! ## The CSV writer -/

/-- C8: on a non-empty marker list the writer emits the fixed 6-column
header followed by one row per marker carrying the display name, the
integer position, the duration, the sample-rate string, the literal
`"Cue"`, and a description that is empty unless the duration is positive,
in which case it is the formatted range. -/
theorem c8_rows (markers : List Marker) (h : markers ≠ []) :
    save_markers_to_csv markers = some (csvHeader :: markers.map markerRow) ∧
    csvHeader = ["Name", "Start", "Duration", "Time Format", "Type",
      "Description"] ∧
    ∀ m ∈ markers,
      markerRow m = [m.name, toString m.position, toString m.duration,
        toString m.sample_rate ++ " Hz", "Cue",
        if m.duration > 0 then
          "Range: " ++ format_time ((m.duration : ℚ) / (m.sample_rate : ℚ))
        else ""] ∧
      (m.duration ≤ 0 → (markerRow m).getLast? = some "") ∧
      (m.duration > 0 → (markerRow m).getLast? =
        some ("Range: " ++ format_time ((m.duration : ℚ) / (m.sample_rate : ℚ)))) := by
    refine ⟨?_, rfl, ?_⟩
    · rw [save_markers_to_csv, if_neg (by simpa using h)]
    · intro m hm
      refine ⟨rfl, ?_, ?_⟩
      · intro hle
        rw [markerRow]
        simp [not_lt.mpr hle]
      · intro hgt
        rw [markerRow]
        simp [hgt]

theorem c8_witness :
    save_markers_to_csv [⟨"a", "n", 5, 0, "00:00.000", "Cue", 48000, 0⟩] =
      some (csvHeader ::
        [(⟨"a", "n", 5, 0, "00:00.000", "Cue", 48000, 0⟩ : Marker)].map markerRow) ∧
    (markerRow ⟨"a", "n", 5, 0, "00:00.000", "Cue", 48000, 0⟩).getLast? = some "" :=
  ⟨(c8_rows [⟨"a", "n", 5, 0, "00:00.000", "Cue", 48000, 0⟩] (by simp)).1,
   ((c8_rows [⟨"a", "n", 5, 0, "00:00.000", "Cue", 48000, 0⟩] (by simp)).2.2
      ⟨"a", "n", 5, 0, "00:00.000", "Cue", 48000, 0⟩ (by simp)).2.1 (by decide)⟩
